import Mathlib

/-!
Verification of the matchmaking-and-relay server of the yelloo repository
(the Express + socket-io server file: in-memory `connectedUsers`,
`waitingUsers`, `activeRooms`, the `findMatch` pairing function, the
socket event handlers, and the periodic stale-room sweep).

Modeling conventions, faithful to the JavaScript runtime semantics:
- a JS `Map` keyed by strings is an association list in insertion order
  (iteration of `Map.entries()` is insertion order; `delete` preserves the
  order of the remaining entries);
- a JS `Set` of strings is a duplicate-free list in insertion order
  (`delete` then `add` appends at the end);
- socket-io room membership (`socket.join` / `socket.leave` /
  `socket.to(room).emit`) is a list of (socket id, room id) pairs; a
  disconnecting socket is removed from all its rooms by socket-io itself;
- the `user_sessions` database table, which the find-match handler reads
  back, is mirrored as a list of rows holding exactly the columns this
  server reads or writes (`user_id`, `socket_id`, `is_active`, `room_id`);
  the schema defaults give a fresh row `is_active = TRUE, room_id = NULL`.
  Writes to `chat_rooms` / `room_participants` are never read back by the
  server and are not mirrored;
- `generateRoomId()` returns a fresh random string; the fresh id is an
  input of the corresponding operation, and legal traces require it to be
  unused (the collision resistance the random id relies on);
- socket ids are chosen by socket-io and never reused across connections.
-/

namespace Yelloo

/-- A room record stored in `activeRooms`: `{ users: [id1, id2], createdAt }`. -/
structure Room where
  users : List String
  createdAt : Nat
deriving Repr, DecidableEq

/-- A row of the `user_sessions` table, restricted to the columns the server
reads or writes. The connection handler inserts
`(user_id, socket_id, connected_at)`, so a fresh row has the schema defaults
`is_active = TRUE` and `room_id = NULL`. -/
structure DbSessionRow where
  user_id : String
  socket_id : String
  is_active : Bool
  room_id : Option String
deriving Repr, DecidableEq

/-- The in-memory server state plus the `user_sessions` mirror.
`connectedUsers` maps a socket id to its authenticated user id
(`socket.user.id`), standing for the socket object stored in the JS map.
`joined` is the socket-io room membership relation. -/
@[ext] structure ServerState where
  connectedUsers : List (String × String)
  waitingUsers : List String
  activeRooms : List (String × Room)
  joined : List (String × String)
  userSessions : List DbSessionRow
deriving Repr, DecidableEq

/-- JS `Map.get`: the value at the first (hence unique) matching key. -/
def mapGet {α : Type} (k : String) : List (String × α) → Option α
  | [] => none
  | (k', v) :: rest => if k' = k then some v else mapGet k rest

/-- JS `Map.delete` / `Set.delete` on an association list. -/
def mapDelete {α : Type} (k : String) (m : List (String × α)) : List (String × α) :=
  m.filter fun p => decide (p.1 ≠ k)

/-- JS `Set.delete` on a string set. -/
def setDelete (x : String) (s : List String) : List String :=
  s.filter fun y => decide (y ≠ x)

/-- JS `Set.add`: appends at the end when absent, otherwise keeps the set. -/
def setAdd (x : String) (s : List String) : List String :=
  if x ∈ s then s else s ++ [x]

/-- `socket.join(roomId)`: record membership (idempotent). -/
def joinRoom (j : List (String × String)) (sid roomId : String) : List (String × String) :=
  if (sid, roomId) ∈ j then j else j ++ [(sid, roomId)]

/-- `socket.leave(roomId)`. -/
def leaveRoom (j : List (String × String)) (sid roomId : String) : List (String × String) :=
  j.filter fun p => decide (¬(p.1 = sid ∧ p.2 = roomId))

/-- The recipients of `socket.to(roomId).emit(...)` sent by `sender`:
every socket joined to the socket-io room except the sender. -/
def roomTargets (st : ServerState) (roomId sender : String) : List String :=
  (st.joined.filter fun p => decide (p.2 = roomId ∧ p.1 ≠ sender)).map (·.1)

/-- The disconnect handler's
`UPDATE user_sessions SET disconnected_at = NOW(), is_active = false WHERE socket_id = $1`. -/
def dbDeactivate (rows : List DbSessionRow) (sid : String) : List DbSessionRow :=
  rows.map fun r => if r.socket_id = sid then { r with is_active := false } else r

/-- The disconnect handler's scan
`for (const [roomId, room] of activeRooms.entries()) if (room.users.includes(socket.id)) { ...; break }`:
the first room (in insertion order) whose member list contains `sid`. -/
def findRoomOf (rooms : List (String × Room)) (sid : String) : Option (String × Room) :=
  rooms.find? fun p => p.2.users.contains sid

/-- Server-to-client emissions relevant to the claims. `relayed` stands for
the six room-scoped forwards (`webrtc-offer`, `webrtc-answer`,
`webrtc-ice-candidate`, `chat-message`, `partner-camera-toggle`,
`partner-mic-toggle`), tagged with the event kind, the opaque payload and
the sender id (`from`). -/
inductive Emit where
  | matched (dst roomId partnerId : String) (isInitiator : Bool)
  | waitingForMatch (dst : String)
  | alreadyInRoom (dst roomId : String)
  | relayed (dst kind payload sender : String)
  | partnerSkipped (dst : String)
  | partnerDisconnected (dst : String)
deriving Repr, DecidableEq

/-- The partner-selection loop of `findMatch`, run after
`waitingUsers.delete(userId)`: the first waiting user `w` (set iteration
order) with `w !== userId` for which both `connectedUsers.get(userId)` and
`connectedUsers.get(w)` are present. When either socket is absent the loop
falls through to the next candidate. -/
def findMatchPartner (st : ServerState) (userId : String) : Option String :=
  (setDelete userId st.waitingUsers).find? fun w =>
    decide (w ≠ userId ∧ (mapGet userId st.connectedUsers).isSome ∧
      (mapGet w st.connectedUsers).isSome)

/-- Result of `findMatch`: the new state, the emissions, and the boolean the
JS function returns. -/
structure FindMatchResult where
  state : ServerState
  emits : List Emit
  matched : Bool
deriving Repr, DecidableEq

/-- `findMatch(userId)` (server file, lines 179-221). `roomId` is the fresh
string produced by `generateRoomId()` for the successful pairing and `now`
the value of `new Date()`. On success: the partner is also deleted from
`waitingUsers`, both sockets join the room, the room is stored in
`activeRooms`, the caller is notified `matched` with `isInitiator: true`
and the partner with `isInitiator: false`, and the function returns true.
Otherwise the caller is re-added to `waitingUsers` and it returns false. -/
def findMatch (st : ServerState) (userId roomId : String) (now : Nat) : FindMatchResult :=
  let waiting1 := setDelete userId st.waitingUsers
  let st1 : ServerState := { st with waitingUsers := waiting1 }
  match findMatchPartner st1 userId with
  | some w =>
      { state := { st1 with
          waitingUsers := setDelete w waiting1
          joined := joinRoom (joinRoom st1.joined userId roomId) w roomId
          activeRooms := st1.activeRooms ++ [(roomId, ⟨[userId, w], now⟩)] }
        emits := [.matched userId roomId w true, .matched w roomId userId false]
        matched := true }
  | none =>
      { state := { st1 with waitingUsers := setAdd userId waiting1 }
        emits := []
        matched := false }

/-- The `io.on("connection")` body: store the socket in `connectedUsers` and
insert a `user_sessions` row (schema defaults: active, no room). -/
def onConnection (st : ServerState) (uid sid : String) : ServerState × List Emit :=
  ({ st with
      connectedUsers := st.connectedUsers ++ [(sid, uid)]
      userSessions := st.userSessions ++ [⟨uid, sid, true, none⟩] }, [])

/-- The `socket.on("find-match")` handler. It first runs
`SELECT room_id FROM user_sessions WHERE user_id = $1 AND is_active = true AND room_id IS NOT NULL`
for `socket.user.id`; a non-empty result yields `already-in-room` with the
first row's room id and an early return. Otherwise `findMatch(socket.id)`
runs, and `waiting-for-match` is emitted when it returns false. The `none`
branch for the socket lookup is unreachable for a live socket (the
connection handler registered it) and is a no-op. -/
def onFindMatch (st : ServerState) (sid freshRoom : String) (now : Nat) :
    ServerState × List Emit :=
  match mapGet sid st.connectedUsers with
  | none => (st, [])
  | some uid =>
    match (st.userSessions.filter fun r =>
        decide (r.user_id = uid ∧ r.is_active = true ∧ r.room_id.isSome)) with
    | r :: _ => (st, [.alreadyInRoom sid (r.room_id.getD "")])
    | [] =>
      let res := findMatch st sid freshRoom now
      (res.state, res.emits ++ if res.matched then [] else [.waitingForMatch sid])

/-- The six relay handlers (`webrtc-offer`, `webrtc-answer`,
`webrtc-ice-candidate`, `chat-message`, `toggle-camera`, `toggle-mic`) all
have the same body: `socket.to(data.roomId).emit(<kind>, { <payload>, from: socket.id })`
with no state change and no check of any kind on the sender or the room. -/
def onRelay (st : ServerState) (sid roomId kind payload : String) :
    ServerState × List Emit :=
  (st, (roomTargets st roomId sid).map fun t => .relayed t kind payload sid)

/-- The state cleanup of the `socket.on("skip-user")` handler: the sender
leaves the room, and if the room id is registered, the other listed user
leaves too (when its socket is connected) and the room is deleted from
`activeRooms`. -/
def skipCleanup (st : ServerState) (sid roomId : String) : ServerState :=
  let st1 : ServerState := { st with joined := leaveRoom st.joined sid roomId }
  match mapGet roomId st1.activeRooms with
  | none => st1
  | some room =>
    let st1' : ServerState :=
      match room.users.find? fun i => decide (i ≠ sid) with
      | none => st1
      | some other =>
        match mapGet other st1.connectedUsers with
        | none => st1
        | some _ => { st1 with joined := leaveRoom st1.joined other roomId }
    { st1' with activeRooms := mapDelete roomId st1'.activeRooms }

/-- The body of `socket.on("skip-user")` after the broadcast and leaves:
re-run `findMatch(socket.id)` and emit `waiting-for-match` on false. The
broadcast targets are computed from the pre-leave membership, exactly as
`socket.to(...)` fires before any `leave` call in the handler. -/
def onSkipUser (st : ServerState) (sid roomId freshRoom : String) (now : Nat) :
    ServerState × List Emit :=
  let skipEmits := (roomTargets st roomId sid).map fun t => Emit.partnerSkipped t
  let st2 := skipCleanup st sid roomId
  let res := findMatch st2 sid freshRoom now
  (res.state, skipEmits ++ res.emits ++ if res.matched then [] else [.waitingForMatch sid])

/-- The `socket.on("disconnect")` handler body: deactivate the session rows,
delete the socket from `waitingUsers`, scan `activeRooms` for the first
room listing the socket (then notify the connected partner with
`partner-disconnected`, make it leave, delete the room, and break), and
delete the socket from `connectedUsers`. The disconnecting socket itself is
removed from all socket-io rooms by socket-io. The database writes to
`chat_rooms` and `room_participants` are never read back and are omitted. -/
def onDisconnectBody (st : ServerState) (sid : String) : ServerState × List Emit :=
  let st1 : ServerState := { st with
    userSessions := dbDeactivate st.userSessions sid
    waitingUsers := setDelete sid st.waitingUsers }
  let cleaned : ServerState × List Emit :=
    match findRoomOf st1.activeRooms sid with
    | none => (st1, [])
    | some (roomId, room) =>
      let inner : ServerState × List Emit :=
        match room.users.find? fun i => decide (i ≠ sid) with
        | none => (st1, [])
        | some other =>
          match mapGet other st1.connectedUsers with
          | none => (st1, [])
          | some _ =>
            ({ st1 with joined := leaveRoom st1.joined other roomId },
             [Emit.partnerDisconnected other])
      ({ inner.1 with activeRooms := mapDelete roomId inner.1.activeRooms }, inner.2)
  ({ cleaned.1 with
      connectedUsers := mapDelete sid cleaned.1.connectedUsers
      joined := cleaned.1.joined.filter fun p => decide (p.1 ≠ sid) }, cleaned.2)

/-- The room-sweep part of the periodic `setInterval` cleanup task: delete
from `activeRooms` every room with `now - room.createdAt > 3600000`
(deleting during iteration keeps the remaining entries in order). Times are
milliseconds; `Nat` subtraction truncates at zero exactly as the JS
comparison stays false for a creation time in the future. -/
def cleanupSweep (st : ServerState) (now : Nat) : ServerState :=
  { st with activeRooms :=
      st.activeRooms.filter fun p => decide (¬(now - p.2.createdAt > 3600000)) }

/-- Client-driven events plus the periodic sweep. `freshRoom` carries the
string `generateRoomId()` would produce, `now` the current time. -/
inductive Ev where
  | connect (uid sid : String)
  | findMatchReq (sid freshRoom : String) (now : Nat)
  | relayReq (sid roomId kind payload : String)
  | skipReq (sid roomId freshRoom : String) (now : Nat)
  | disconnect (sid : String)
  | sweep (now : Nat)
deriving Repr, DecidableEq

/-- One server step: dispatch an event to its handler. -/
def step (st : ServerState) : Ev → ServerState × List Emit
  | .connect uid sid => onConnection st uid sid
  | .findMatchReq sid fresh now => onFindMatch st sid fresh now
  | .relayReq sid roomId kind payload => onRelay st sid roomId kind payload
  | .skipReq sid roomId fresh now => onSkipUser st sid roomId fresh now
  | .disconnect sid => onDisconnectBody st sid
  | .sweep now => (cleanupSweep st now, [])

/-- Run a sequence of events, collecting all emissions in order. -/
def run (st : ServerState) : List Ev → ServerState × List Emit
  | [] => (st, [])
  | ev :: evs =>
      let r1 := step st ev
      let r2 := run r1.1 evs
      (r2.1, r1.2 ++ r2.2)

/-- Which events can actually occur at a state: a handler only fires for a
socket that is currently connected, a new connection gets a socket id not
currently in use, and a fresh room id does not collide with a live room
(collision resistance of `generateRoomId`). -/
def LegalEv (st : ServerState) : Ev → Prop
  | .connect _ sid => mapGet sid st.connectedUsers = none
  | .findMatchReq sid fresh _ =>
      (mapGet sid st.connectedUsers).isSome ∧ mapGet fresh st.activeRooms = none
  | .relayReq sid _ _ _ => (mapGet sid st.connectedUsers).isSome
  | .skipReq sid _ fresh _ =>
      (mapGet sid st.connectedUsers).isSome ∧ mapGet fresh st.activeRooms = none
  | .disconnect sid => (mapGet sid st.connectedUsers).isSome
  | .sweep _ => True

/-- A trace is legal when every event is legal at the state it fires in. -/
def LegalTrace (st : ServerState) : List Ev → Prop
  | [] => True
  | ev :: evs => LegalEv st ev ∧ LegalTrace (step st ev).1 evs

/-- The empty initial state of the freshly started server. -/
def initState : ServerState :=
  { connectedUsers := [], waitingUsers := [], activeRooms := [],
    joined := [], userSessions := [] }

/-! Concrete traces used to exhibit behaviors of the code. -/

/-- Trace: users A, B, C connect; A queues; B pairs with A (room `r1`);
C queues; then A, still a member of the live room `r1`, sends `find-match`
again. -/
def evsDouble : List Ev :=
  [.connect "uA" "A", .connect "uB" "B", .connect "uC" "C",
   .findMatchReq "A" "r0" 0, .findMatchReq "B" "r1" 1,
   .findMatchReq "C" "r2" 2, .findMatchReq "A" "r3" 3]

/-- Trace: A and B connect and get paired into room `r1`; X connects and
never joins any room. -/
def evsRelay : List Ev :=
  [.connect "uA" "A", .connect "uB" "B", .connect "uX" "X",
   .findMatchReq "A" "r0" 0, .findMatchReq "B" "r1" 1]

/-! Basic lemmas about the map and set primitives. -/

theorem mapGet_eq_none_iff {α : Type} (k : String) (l : List (String × α)) :
    mapGet k l = none ↔ ∀ p ∈ l, p.1 ≠ k := by
  induction l with
  | nil => simp [mapGet]
  | cons hd tl ih =>
    obtain ⟨k', v⟩ := hd
    by_cases hk : k' = k <;> simp [mapGet, hk, ih]

theorem mapGet_append_of_none {α : Type} {k : String} {l₁ : List (String × α)}
    (h : mapGet k l₁ = none) (l₂ : List (String × α)) :
    mapGet k (l₁ ++ l₂) = mapGet k l₂ := by
  induction l₁ with
  | nil => simp
  | cons hd tl ih =>
    obtain ⟨k', v⟩ := hd
    by_cases hk : k' = k
    · simp [mapGet, hk] at h
    · rw [List.cons_append]
      simp only [mapGet, hk, if_false] at h ⊢
      exact ih h

theorem mapGet_filter_of_none {α : Type} {k : String} {l : List (String × α)}
    (h : mapGet k l = none) (f : String × α → Bool) :
    mapGet k (l.filter f) = none := by
  rw [mapGet_eq_none_iff] at h ⊢
  intro p hp
  exact h p (List.mem_filter.1 hp).1

theorem mapGet_mapDelete_self {α : Type} (k : String) (l : List (String × α)) :
    mapGet k (mapDelete k l) = none := by
  rw [mapGet_eq_none_iff]
  intro p hp
  have := (List.mem_filter.1 hp).2
  simpa using this

theorem mem_setDelete {x y : String} {s : List String} :
    x ∈ setDelete y s ↔ x ∈ s ∧ x ≠ y := by
  simp [setDelete, List.mem_filter]

theorem not_mem_setDelete_self (x : String) (s : List String) :
    x ∉ setDelete x s := by
  simp [mem_setDelete]

theorem mem_setAdd {x y : String} {s : List String} :
    x ∈ setAdd y s ↔ x ∈ s ∨ x = y := by
  unfold setAdd
  by_cases h : y ∈ s
  · simp only [h, if_true]
    constructor
    · exact Or.inl
    · rintro (hx | rfl) <;> [exact hx; exact h]
  · simp [h]

theorem setDelete_idem (x : String) (s : List String) :
    setDelete x (setDelete x s) = setDelete x s := by
  simp [setDelete, List.filter_filter]

theorem dbDeactivate_idem (rows : List DbSessionRow) (sid : String) :
    dbDeactivate (dbDeactivate rows sid) sid = dbDeactivate rows sid := by
  unfold dbDeactivate
  rw [List.map_map]
  apply List.map_congr_left
  intro r _
  by_cases h : r.socket_id = sid <;> simp [Function.comp, h]

/-! Characterization of `findMatch`. -/

theorem findMatchPartner_unfold (st : ServerState) (u : String) :
    findMatchPartner { st with waitingUsers := setDelete u st.waitingUsers } u =
      (setDelete u st.waitingUsers).find? fun w =>
        decide (w ≠ u ∧ (mapGet u st.connectedUsers).isSome ∧
          (mapGet w st.connectedUsers).isSome) := by
  simp [findMatchPartner, setDelete_idem]

theorem findMatch_of_partner_some {st : ServerState} {u w : String} (r : String) (n : Nat)
    (h : findMatchPartner { st with waitingUsers := setDelete u st.waitingUsers } u = some w) :
    findMatch st u r n =
      { state := { st with
          waitingUsers := setDelete w (setDelete u st.waitingUsers)
          joined := joinRoom (joinRoom st.joined u r) w r
          activeRooms := st.activeRooms ++ [(r, ⟨[u, w], n⟩)] }
        emits := [.matched u r w true, .matched w r u false]
        matched := true } := by
  simp [findMatch, h]

theorem findMatch_of_partner_none {st : ServerState} {u : String} (r : String) (n : Nat)
    (h : findMatchPartner { st with waitingUsers := setDelete u st.waitingUsers } u = none) :
    findMatch st u r n =
      { state := { st with waitingUsers := setAdd u (setDelete u st.waitingUsers) }
        emits := []
        matched := false } := by
  simp [findMatch, h]

theorem findMatchPartner_mem {st : ServerState} {u w : String}
    (h : findMatchPartner { st with waitingUsers := setDelete u st.waitingUsers } u = some w) :
    w ∈ st.waitingUsers ∧ w ≠ u := by
  rw [findMatchPartner_unfold] at h
  have hm := List.mem_of_find?_eq_some h
  have hp := List.find?_some h
  rw [decide_eq_true_eq] at hp
  exact ⟨(mem_setDelete.1 hm).1, hp.1⟩

/-- Claim C2: the spec demands that no session id ever be a member of two
distinct active Rooms. The code violates it: along the legal event trace
`evsDouble` (a pairing A-B, then a second `find-match` from A, whose
already-in-room database guard never fires because no code path ever writes
`user_sessions.room_id`), session "A" ends up listed in the two distinct
live rooms "r1" and "r3" of `activeRooms`. -/
theorem claim_C2_session_in_two_rooms :
    LegalTrace initState evsDouble ∧
    mapGet "r1" (run initState evsDouble).1.activeRooms =
      some { users := ["B", "A"], createdAt := 1 } ∧
    mapGet "r3" (run initState evsDouble).1.activeRooms =
      some { users := ["A", "C"], createdAt := 3 } ∧
    ("r1" : String) ≠ "r3" := by
  refine ⟨?_, by decide, by decide, by decide⟩
  exact ⟨rfl, rfl, rfl, ⟨rfl, rfl⟩, ⟨rfl, rfl⟩, ⟨rfl, rfl⟩, ⟨rfl, rfl⟩, trivial⟩

/-- Claim C3: a `find-match` from a session that is MATCHED (member of the
live room "r1") is supposed to be answered with `already-in-room` and leave
state untouched. Instead the code re-pairs it: after the first six events
of `evsDouble`, "A" is a member of the active room "r1", yet its
`find-match` emits `matched` (pairing "A" with "C" in a new room) and no
`already-in-room` event, because the guard reads `user_sessions.room_id`,
a column no code path ever writes. -/
theorem claim_C3_matched_session_repaired :
    LegalTrace initState evsDouble ∧
    mapGet "r1" (run initState (evsDouble.take 6)).1.activeRooms =
      some { users := ["B", "A"], createdAt := 1 } ∧
    (step (run initState (evsDouble.take 6)).1 (.findMatchReq "A" "r3" 3)).2 =
      [.matched "A" "r3" "C" true, .matched "C" "r3" "A" false] := by
  refine ⟨?_, by decide, by decide⟩
  exact ⟨rfl, rfl, rfl, ⟨rfl, rfl⟩, ⟨rfl, rfl⟩, ⟨rfl, rfl⟩, ⟨rfl, rfl⟩, trivial⟩

/-- Claim C1, counterexample: a relay request naming room "r1" from session
"X", which is connected but not a member of "r1" (whose members are "B" and
"A"), is not rejected: the `webrtc-offer` payload is delivered to both
members of "r1". -/
theorem claim_C1_counterexample :
    LegalTrace initState evsRelay ∧
    mapGet "r1" (run initState evsRelay).1.activeRooms =
      some { users := ["B", "A"], createdAt := 1 } ∧
    ("X" ∉ (["B", "A"] : List String)) ∧
    (mapGet "X" (run initState evsRelay).1.connectedUsers).isSome ∧
    (step (run initState evsRelay).1 (.relayReq "X" "r1" "webrtc-offer" "sdp")).2 =
      [.relayed "B" "webrtc-offer" "sdp" "X", .relayed "A" "webrtc-offer" "sdp" "X"] := by
  refine ⟨?_, by decide, by decide, by decide, by decide⟩
  exact ⟨rfl, rfl, rfl, ⟨rfl, rfl⟩, ⟨rfl, rfl⟩, trivial⟩

/-- Claim C1 as amended: a relay request (any of the six kinds) is never
rejected and never checked for membership; it leaves the state unchanged
and forwards the payload, tagged with the sender id, to exactly the sockets
joined to the named socket-io room other than the sender — in particular a
request from a non-member of an active room is delivered to both of its
members. -/
theorem claim_C1_relay_forwards_unchecked (st : ServerState)
    (sid roomId kind payload t : String) :
    (step st (.relayReq sid roomId kind payload)).1 = st ∧
    (Emit.relayed t kind payload sid ∈ (step st (.relayReq sid roomId kind payload)).2 ↔
      (t, roomId) ∈ st.joined ∧ t ≠ sid) ∧
    ∀ e ∈ (step st (.relayReq sid roomId kind payload)).2,
      ∃ t', e = Emit.relayed t' kind payload sid := by
  refine ⟨rfl, ?_, ?_⟩
  · simp only [step, onRelay, roomTargets, List.mem_map, List.mem_filter,
      decide_eq_true_eq]
    constructor
    · rintro ⟨x, ⟨⟨p, ⟨hp, hp2, hps⟩, rfl⟩, he⟩⟩
      injection he with h1 _ _ _
      subst h1
      exact ⟨by rwa [← hp2], hps⟩
    · rintro ⟨hj, hne⟩
      exact ⟨t, ⟨⟨(t, roomId), ⟨hj, rfl, hne⟩, rfl⟩, rfl⟩⟩
  · intro e he
    simp only [step, onRelay, List.mem_map] at he
    obtain ⟨x, _, rfl⟩ := he
    exact ⟨x, rfl⟩

/-- Claim C4: whenever `findMatch` pairs two sessions, the caller (the
session whose request triggered the pairing, arriving second) is notified
`matched` with `isInitiator: true` and the already-waiting partner with
`isInitiator: false`: exactly one of the two is the initiator, and since
`findMatch` is a function of the state and its arguments, the rule is
deterministic and repeatable. -/
theorem claim_C4_initiator_rule (st : ServerState) (userId roomId : String) (now : Nat)
    (h : (findMatch st userId roomId now).matched = true) :
    ∃ w, w ≠ userId ∧
      (findMatch st userId roomId now).emits =
        [.matched userId roomId w true, .matched w roomId userId false] := by
  cases hfp : findMatchPartner
      { st with waitingUsers := setDelete userId st.waitingUsers } userId with
  | none =>
    rw [findMatch_of_partner_none roomId now hfp] at h
    simp at h
  | some w =>
    refine ⟨w, (findMatchPartner_mem hfp).2, ?_⟩
    rw [findMatch_of_partner_some roomId now hfp]

/-- Concrete state for the C4 witness: "A" waiting, "A" and "B" connected. -/
def stPair : ServerState :=
  { connectedUsers := [("A", "uA"), ("B", "uB")], waitingUsers := ["A"],
    activeRooms := [], joined := [],
    userSessions := [⟨"uA", "A", true, none⟩, ⟨"uB", "B", true, none⟩] }

/-- Witness for claim C4 at the concrete state `stPair`. -/
theorem claim_C4_initiator_rule_witness :
    (findMatch stPair "B" "r1" 5).matched = true ∧
    ∃ w, w ≠ "B" ∧ (findMatch stPair "B" "r1" 5).emits =
      [.matched "B" "r1" w true, .matched w "r1" "B" false] :=
  ⟨by decide, claim_C4_initiator_rule stPair "B" "r1" 5 (by decide)⟩

/-- Claim C5: behavior of a `find-match` request from a connected session,
given that waiting sessions are connected (they are in every reachable
state) and that, as in every run of this code, no `user_sessions` row has a
room id. If no other session is waiting, the caller stays queued, no room
is created, and it is told `waiting-for-match`; otherwise a partner `w` is
selected, both are out of the queue afterwards, and a room with exactly the
members `[sid, w]` is registered. -/
theorem claim_C5_enqueue_pairs_or_waits (st : ServerState)
    (sid freshRoom uid : String) (now : Nat)
    (hc : mapGet sid st.connectedUsers = some uid)
    (hdb : ∀ r ∈ st.userSessions, r.room_id = none)
    (hwc : ∀ w ∈ st.waitingUsers, (mapGet w st.connectedUsers).isSome) :
    (setDelete sid st.waitingUsers = [] →
      sid ∈ (step st (.findMatchReq sid freshRoom now)).1.waitingUsers ∧
      (step st (.findMatchReq sid freshRoom now)).1.activeRooms = st.activeRooms ∧
      (step st (.findMatchReq sid freshRoom now)).2 = [.waitingForMatch sid]) ∧
    (setDelete sid st.waitingUsers ≠ [] →
      ∃ w, w ∈ st.waitingUsers ∧ w ≠ sid ∧
        (step st (.findMatchReq sid freshRoom now)).1.activeRooms =
          st.activeRooms ++ [(freshRoom, ⟨[sid, w], now⟩)] ∧
        sid ∉ (step st (.findMatchReq sid freshRoom now)).1.waitingUsers ∧
        w ∉ (step st (.findMatchReq sid freshRoom now)).1.waitingUsers ∧
        (step st (.findMatchReq sid freshRoom now)).2 =
          [.matched sid freshRoom w true, .matched w freshRoom sid false]) := by
  have hfilter : (st.userSessions.filter fun r =>
      decide (r.user_id = uid) && (r.is_active && r.room_id.isSome)) = [] := by
    rw [List.filter_eq_nil_iff]
    intro r hr
    simp [hdb r hr]
  have hstep : step st (.findMatchReq sid freshRoom now) =
      ((findMatch st sid freshRoom now).state,
        (findMatch st sid freshRoom now).emits ++
          if (findMatch st sid freshRoom now).matched then []
          else [.waitingForMatch sid]) := by
    simp [step, onFindMatch, hc, hfilter]
  constructor
  · intro h1
    have hfp : findMatchPartner
        { st with waitingUsers := setDelete sid st.waitingUsers } sid = none := by
      rw [findMatchPartner_unfold, h1]
      rfl
    rw [hstep, findMatch_of_partner_none freshRoom now hfp]
    refine ⟨?_, rfl, rfl⟩
    exact mem_setAdd.2 (Or.inr rfl)
  · intro h1
    cases hl : setDelete sid st.waitingUsers with
    | nil => exact absurd hl h1
    | cons w rest =>
      have hwmem : w ∈ setDelete sid st.waitingUsers := by rw [hl]; exact List.mem_cons_self _ _
      have hw := mem_setDelete.1 hwmem
      have hfp : findMatchPartner
          { st with waitingUsers := setDelete sid st.waitingUsers } sid = some w := by
        rw [findMatchPartner_unfold, hl]
        apply List.find?_cons_of_pos
        rw [decide_eq_true_eq]
        exact ⟨hw.2, by simp [hc], hwc w hw.1⟩
      refine ⟨w, hw.1, hw.2, ?_⟩
      rw [hstep, findMatch_of_partner_some freshRoom now hfp]
      refine ⟨rfl, ?_, not_mem_setDelete_self w _, rfl⟩
      intro hmem
      exact not_mem_setDelete_self sid _ (mem_setDelete.1 hmem).1

/-- Concrete states for the two branches of the C5 witness. -/
def stLone : ServerState :=
  { connectedUsers := [("A", "uA")], waitingUsers := [],
    activeRooms := [], joined := [], userSessions := [⟨"uA", "A", true, none⟩] }

/-- Witness for claim C5: both hypotheses and both branches discharged at
concrete states (`stLone` for the empty queue, `stPair` for a pairing). -/
theorem claim_C5_enqueue_pairs_or_waits_witness :
    (mapGet "A" stLone.connectedUsers = some "uA" ∧
      (∀ r ∈ stLone.userSessions, r.room_id = none) ∧
      (∀ w ∈ stLone.waitingUsers, (mapGet w stLone.connectedUsers).isSome) ∧
      setDelete "A" stLone.waitingUsers = [] ∧
      "A" ∈ (step stLone (.findMatchReq "A" "r1" 0)).1.waitingUsers ∧
      (step stLone (.findMatchReq "A" "r1" 0)).2 = [.waitingForMatch "A"]) ∧
    (mapGet "B" stPair.connectedUsers = some "uB" ∧
      setDelete "B" stPair.waitingUsers ≠ [] ∧
      ∃ w, w ∈ stPair.waitingUsers ∧ w ≠ "B" ∧
        (step stPair (.findMatchReq "B" "r1" 5)).1.activeRooms =
          stPair.activeRooms ++ [("r1", ⟨["B", w], 5⟩)] ∧
        "B" ∉ (step stPair (.findMatchReq "B" "r1" 5)).1.waitingUsers ∧
        w ∉ (step stPair (.findMatchReq "B" "r1" 5)).1.waitingUsers ∧
        (step stPair (.findMatchReq "B" "r1" 5)).2 =
          [.matched "B" "r1" w true, .matched w "r1" "B" false]) := by
  constructor
  · refine ⟨by decide, by decide, by decide, by decide, ?_, ?_⟩
    · have := (claim_C5_enqueue_pairs_or_waits stLone "A" "r1" "uA" 0
        (by decide) (by decide) (by decide)).1 (by decide)
      exact this.1
    · have := (claim_C5_enqueue_pairs_or_waits stLone "A" "r1" "uA" 0
        (by decide) (by decide) (by decide)).1 (by decide)
      exact this.2.2
  · refine ⟨by decide, by decide, ?_⟩
    have := (claim_C5_enqueue_pairs_or_waits stPair "B" "r1" "uB" 5
      (by decide) (by decide) (by decide)).2 (by decide)
    obtain ⟨w, h1, h2, h3, h4, h5, h6⟩ := this
    exact ⟨w, h1, h2, h3, h4, h5, h6⟩

/-- Claim C9: one run of the periodic cleanup sweep keeps a registered room
if and only if its age at sweep time is at most the one-hour threshold
(3600000 ms): every older room is force-closed even without a disconnect,
and no younger room is removed. -/
theorem claim_C9_sweep_closes_exactly_old_rooms (st : ServerState) (now : Nat)
    (roomId : String) (room : Room)
    (h : (roomId, room) ∈ st.activeRooms) :
    ((roomId, room) ∈ (step st (.sweep now)).1.activeRooms ↔
      now - room.createdAt ≤ 3600000) := by
  simp [step, cleanupSweep, List.mem_filter, h, Nat.not_lt]

/-- Concrete state for the C9 witness: a stale room and a fresh room. -/
def stSweep : ServerState :=
  { connectedUsers := [], waitingUsers := [],
    activeRooms := [("rOld", ⟨["A", "B"], 0⟩), ("rNew", ⟨["C", "D"], 1000000⟩)],
    joined := [], userSessions := [] }

/-- Witness for claim C9 at `stSweep` with `now = 4000001`: the stale room
(age 4000001 ms) is removed, the fresh room (age 3000001 ms) is kept. -/
theorem claim_C9_sweep_closes_exactly_old_rooms_witness :
    (("rOld", (⟨["A", "B"], 0⟩ : Room)) ∈ stSweep.activeRooms ∧
      (("rOld", (⟨["A", "B"], 0⟩ : Room)) ∈
          (step stSweep (.sweep 4000001)).1.activeRooms ↔
        4000001 - 0 ≤ 3600000)) ∧
    (("rNew", (⟨["C", "D"], 1000000⟩ : Room)) ∈ stSweep.activeRooms ∧
      (("rNew", (⟨["C", "D"], 1000000⟩ : Room)) ∈
          (step stSweep (.sweep 4000001)).1.activeRooms ↔
        4000001 - 1000000 ≤ 3600000)) :=
  ⟨⟨by decide, claim_C9_sweep_closes_exactly_old_rooms stSweep 4000001 "rOld"
      ⟨["A", "B"], 0⟩ (by decide)⟩,
   ⟨by decide, claim_C9_sweep_closes_exactly_old_rooms stSweep 4000001 "rNew"
      ⟨["C", "D"], 1000000⟩ (by decide)⟩⟩

/-- Shape of the skip-user handler when the named room is registered: some
socket-io membership list `j` results from the leave calls, the room is
deleted from `activeRooms`, the queue and the connected map are untouched
by the cleanup, and then `findMatch` runs for the skipper on that state,
after the `partner-skipped` broadcast. -/
theorem skipCleanup_waitingUsers (st : ServerState) (sid roomId : String) :
    (skipCleanup st sid roomId).waitingUsers = st.waitingUsers := by
  simp only [skipCleanup]
  split
  · rfl
  · split <;> [rfl; skip]
    split <;> rfl

theorem skipCleanup_connectedUsers (st : ServerState) (sid roomId : String) :
    (skipCleanup st sid roomId).connectedUsers = st.connectedUsers := by
  simp only [skipCleanup]
  split
  · rfl
  · split <;> [rfl; skip]
    split <;> rfl

theorem skipCleanup_activeRooms {st : ServerState} {sid roomId : String} {room : Room}
    (hroom : mapGet roomId st.activeRooms = some room) :
    (skipCleanup st sid roomId).activeRooms = mapDelete roomId st.activeRooms := by
  simp only [skipCleanup]
  split
  · simp_all
  · split <;> [rfl; skip]
    split <;> rfl

theorem onSkipUser_eq (st : ServerState) (sid roomId freshRoom : String) (now : Nat) :
    onSkipUser st sid roomId freshRoom now =
      ((findMatch (skipCleanup st sid roomId) sid freshRoom now).state,
       ((roomTargets st roomId sid).map fun t => Emit.partnerSkipped t) ++
         (findMatch (skipCleanup st sid roomId) sid freshRoom now).emits ++
         if (findMatch (skipCleanup st sid roomId) sid freshRoom now).matched then []
         else [.waitingForMatch sid]) := rfl

theorem findMatch_activeRooms_cases (st : ServerState) (u r : String) (n : Nat) :
    (findMatch st u r n).state.activeRooms = st.activeRooms ∨
    ∃ w, (findMatch st u r n).state.activeRooms = st.activeRooms ++ [(r, ⟨[u, w], n⟩)] := by
  cases hfp : findMatchPartner { st with waitingUsers := setDelete u st.waitingUsers } u with
  | none =>
    rw [findMatch_of_partner_none r n hfp]
    exact Or.inl rfl
  | some w =>
    rw [findMatch_of_partner_some r n hfp]
    exact Or.inr ⟨w, rfl⟩

theorem findMatch_waiting_not_mem {st : ServerState} {u x : String} (r : String) (n : Nat)
    (hx : x ∉ st.waitingUsers) (hxu : x ≠ u) :
    x ∉ (findMatch st u r n).state.waitingUsers := by
  cases hfp : findMatchPartner { st with waitingUsers := setDelete u st.waitingUsers } u with
  | none =>
    rw [findMatch_of_partner_none r n hfp]
    intro hmem
    rcases mem_setAdd.1 hmem with h | h
    · exact hx (mem_setDelete.1 h).1
    · exact hxu h
  | some w =>
    rw [findMatch_of_partner_some r n hfp]
    intro hmem
    exact hx (mem_setDelete.1 (mem_setDelete.1 hmem).1).1

theorem skip_room_deleted {st : ServerState} {sid R : String} {room : Room}
    (hroom : mapGet R st.activeRooms = some room) {freshRoom : String}
    (hfresh : freshRoom ≠ R) (now : Nat) :
    mapGet R (onSkipUser st sid R freshRoom now).1.activeRooms = none := by
  rw [onSkipUser_eq]
  have hbase : mapGet R (skipCleanup st sid R).activeRooms = none := by
    rw [skipCleanup_activeRooms hroom]
    exact mapGet_mapDelete_self R _
  rcases findMatch_activeRooms_cases (skipCleanup st sid R) sid freshRoom now with h | ⟨w, h⟩
  · show mapGet R (findMatch (skipCleanup st sid R) sid freshRoom now).state.activeRooms = none
    rw [h]
    exact hbase
  · show mapGet R (findMatch (skipCleanup st sid R) sid freshRoom now).state.activeRooms = none
    rw [h, mapGet_append_of_none hbase]
    simp [mapGet, hfresh]

/-- Claim C6: after `skip-user` on a registered room R by session A whose
only co-joined socket is its partner B (which, being MATCHED, is not in the
queue): B gets exactly one `partner-skipped` and A none, R is deleted from
`activeRooms`, A is re-run through `findMatch` and told either `matched`
with a new partner (distinct from both A and B) or `waiting-for-match`,
and B is not re-enqueued. -/
theorem claim_C6_skip_notifies_partner_and_requeues_skipper
    (st : ServerState) (A B R freshRoom : String) (now : Nat) (room : Room)
    (hroom : mapGet R st.activeRooms = some room)
    (hfresh : freshRoom ≠ R)
    (htargets : roomTargets st R A = [B])
    (hBA : B ≠ A)
    (hBw : B ∉ st.waitingUsers) :
    mapGet R (step st (.skipReq A R freshRoom now)).1.activeRooms = none ∧
    B ∉ (step st (.skipReq A R freshRoom now)).1.waitingUsers ∧
    ((∃ w, w ≠ A ∧ w ≠ B ∧
        (step st (.skipReq A R freshRoom now)).2 =
          [.partnerSkipped B, .matched A freshRoom w true,
           .matched w freshRoom A false]) ∨
      (step st (.skipReq A R freshRoom now)).2 =
        [.partnerSkipped B, .waitingForMatch A]) := by
  have hstep : step st (.skipReq A R freshRoom now) = onSkipUser st A R freshRoom now := rfl
  have hBw2 : B ∉ (skipCleanup st A R).waitingUsers := by
    rw [skipCleanup_waitingUsers]
    exact hBw
  refine ⟨hstep ▸ skip_room_deleted hroom hfresh now, ?_, ?_⟩
  · rw [hstep, onSkipUser_eq]
    exact findMatch_waiting_not_mem freshRoom now hBw2 hBA
  · rw [hstep, onSkipUser_eq, htargets]
    cases hfp : findMatchPartner
        { skipCleanup st A R with
          waitingUsers := setDelete A (skipCleanup st A R).waitingUsers } A with
    | none =>
      right
      rw [findMatch_of_partner_none freshRoom now hfp]
      rfl
    | some w =>
      left
      have hmem := findMatchPartner_mem hfp
      refine ⟨w, hmem.2, ?_, ?_⟩
      · intro hwB
        rw [skipCleanup_waitingUsers] at hmem
        exact hBw (hwB ▸ hmem.1)
      · rw [findMatch_of_partner_some freshRoom now hfp]
        rfl

/-- Concrete state for the C6 witness: room "r1" with members "A", "B",
both joined, nobody waiting. -/
def stSkip : ServerState :=
  { connectedUsers := [("A", "uA"), ("B", "uB")], waitingUsers := [],
    activeRooms := [("r1", ⟨["A", "B"], 0⟩)],
    joined := [("A", "r1"), ("B", "r1")],
    userSessions := [⟨"uA", "A", true, none⟩, ⟨"uB", "B", true, none⟩] }

/-- Witness for claim C6 at `stSkip`: "A" skips, "B" gets the single
`partner-skipped`, the room is gone, "A" is told `waiting-for-match`. -/
theorem claim_C6_skip_notifies_partner_and_requeues_skipper_witness :
    (mapGet "r1" stSkip.activeRooms = some ⟨["A", "B"], 0⟩ ∧
      roomTargets stSkip "r1" "A" = ["B"] ∧ "B" ∉ stSkip.waitingUsers) ∧
    mapGet "r1" (step stSkip (.skipReq "A" "r1" "r9" 7)).1.activeRooms = none ∧
    "B" ∉ (step stSkip (.skipReq "A" "r1" "r9" 7)).1.waitingUsers ∧
    ((∃ w, w ≠ "A" ∧ w ≠ "B" ∧
        (step stSkip (.skipReq "A" "r1" "r9" 7)).2 =
          [.partnerSkipped "B", .matched "A" "r9" w true,
           .matched w "r9" "A" false]) ∨
      (step stSkip (.skipReq "A" "r1" "r9" 7)).2 =
        [.partnerSkipped "B", .waitingForMatch "A"]) :=
  ⟨⟨by decide, by decide, by decide⟩,
    claim_C6_skip_notifies_partner_and_requeues_skipper stSkip "A" "B" "r1" "r9" 7
      ⟨["A", "B"], 0⟩ (by decide) (by decide) (by decide) (by decide) (by decide)⟩

/-- Claim C10: the skip-user handler performs no membership check on the
sender. For any sender `sid` — member of R or not — naming a registered
room R all of whose members other than the sender are joined to the
socket-io room, every such member is sent `partner-skipped` and R is
deleted from `activeRooms`. -/
theorem claim_C10_skip_acts_without_membership_check
    (st : ServerState) (sid R freshRoom : String) (now : Nat) (room : Room)
    (hroom : mapGet R st.activeRooms = some room)
    (hfresh : freshRoom ≠ R)
    (hj : ∀ m ∈ room.users, m ≠ sid → (m, R) ∈ st.joined) :
    (∀ m ∈ room.users, m ≠ sid →
      Emit.partnerSkipped m ∈ (step st (.skipReq sid R freshRoom now)).2) ∧
    mapGet R (step st (.skipReq sid R freshRoom now)).1.activeRooms = none := by
  have hstep : step st (.skipReq sid R freshRoom now) = onSkipUser st sid R freshRoom now := rfl
  constructor
  · intro m hm hne
    rw [hstep, onSkipUser_eq]
    have htgt : m ∈ roomTargets st R sid := by
      unfold roomTargets
      exact List.mem_map.2 ⟨(m, R),
        List.mem_filter.2 ⟨hj m hm hne, by simp [hne]⟩, rfl⟩
    exact List.mem_append_left _ (List.mem_append_left _ (List.mem_map.2 ⟨m, htgt, rfl⟩))
  · exact hstep ▸ skip_room_deleted hroom hfresh now

/-- Concrete state for the C10 witness: "X" is connected but not a member
of room "r1"; its skip still notifies both members and kills the room. -/
def stSkipX : ServerState :=
  { connectedUsers := [("A", "uA"), ("B", "uB"), ("X", "uX")], waitingUsers := [],
    activeRooms := [("r1", ⟨["A", "B"], 0⟩)],
    joined := [("A", "r1"), ("B", "r1")],
    userSessions := [⟨"uA", "A", true, none⟩, ⟨"uB", "B", true, none⟩,
      ⟨"uX", "X", true, none⟩] }

/-- Witness for claim C10 at `stSkipX`, with the non-member sender "X". -/
theorem claim_C10_skip_acts_without_membership_check_witness :
    (mapGet "r1" stSkipX.activeRooms = some ⟨["A", "B"], 0⟩ ∧
      "X" ∉ (⟨["A", "B"], 0⟩ : Room).users) ∧
    (∀ m ∈ (⟨["A", "B"], 0⟩ : Room).users, m ≠ "X" →
      Emit.partnerSkipped m ∈ (step stSkipX (.skipReq "X" "r1" "r9" 7)).2) ∧
    mapGet "r1" (step stSkipX (.skipReq "X" "r1" "r9" 7)).1.activeRooms = none :=
  ⟨⟨by decide, by decide⟩,
    claim_C10_skip_acts_without_membership_check stSkipX "X" "r1" "r9" 7
      ⟨["A", "B"], 0⟩ (by decide) (by decide) (by decide)⟩

theorem filter_idem {α : Type} (f : α → Bool) (l : List α) :
    (l.filter f).filter f = l.filter f := by
  induction l with
  | nil => rfl
  | cons a t ih => by_cases h : f a <;> simp [List.filter_cons, h, ih]

theorem mapDelete_idem {α : Type} (k : String) (m : List (String × α)) :
    mapDelete k (mapDelete k m) = mapDelete k m :=
  filter_idem _ m

theorem onDisconnectBody_of_none {st : ServerState} {sid : String}
    (h : findRoomOf st.activeRooms sid = none) :
    onDisconnectBody st sid =
      ({ st with
          userSessions := dbDeactivate st.userSessions sid
          waitingUsers := setDelete sid st.waitingUsers
          joined := st.joined.filter fun p => decide (p.1 ≠ sid)
          connectedUsers := mapDelete sid st.connectedUsers }, []) := by
  simp only [onDisconnectBody, h]

theorem onDisconnectBody_of_found {st : ServerState} {sid roomId B u : String} {room : Room}
    (hfind : findRoomOf st.activeRooms sid = some (roomId, room))
    (hother : room.users.find? (fun i => decide (i ≠ sid)) = some B)
    (hBc : mapGet B st.connectedUsers = some u) :
    onDisconnectBody st sid =
      ({ st with
          userSessions := dbDeactivate st.userSessions sid
          waitingUsers := setDelete sid st.waitingUsers
          activeRooms := mapDelete roomId st.activeRooms
          joined := (leaveRoom st.joined B roomId).filter fun p => decide (p.1 ≠ sid)
          connectedUsers := mapDelete sid st.connectedUsers },
       [Emit.partnerDisconnected B]) := by
  simp only [onDisconnectBody, hfind, hother, hBc]

/-- Claim C8: the disconnect-cleanup path is idempotent. If `sid` sits in
exactly one registered room, with a connected partner B listed beside it,
then the first cleanup run notifies B exactly once with
`partner-disconnected`, and a second run for the same session emits
nothing, raises no error (the handler is a total function), and leaves the
state exactly as the first run left it. -/
theorem claim_C8_disconnect_cleanup_idempotent (st : ServerState)
    (sid B roomId u : String) (room : Room)
    (hfind : findRoomOf st.activeRooms sid = some (roomId, room))
    (honly : ∀ p ∈ st.activeRooms, sid ∈ p.2.users → p.1 = roomId)
    (hother : room.users.find? (fun i => decide (i ≠ sid)) = some B)
    (hBc : mapGet B st.connectedUsers = some u) :
    (step st (.disconnect sid)).2 = [.partnerDisconnected B] ∧
    (step (step st (.disconnect sid)).1 (.disconnect sid)).2 = [] ∧
    (step (step st (.disconnect sid)).1 (.disconnect sid)).1 =
      (step st (.disconnect sid)).1 := by
  have hstep : ∀ s : ServerState, step s (.disconnect sid) = onDisconnectBody s sid :=
    fun _ => rfl
  have hnone : findRoomOf (mapDelete roomId st.activeRooms) sid = none := by
    rw [findRoomOf, List.find?_eq_none]
    intro p hp
    have hmem := List.mem_filter.1 hp
    have hne : p.1 ≠ roomId := by simpa using hmem.2
    intro hcon
    exact hne (honly p hmem.1 (by simpa using hcon))
  rw [hstep, hstep, onDisconnectBody_of_found hfind hother hBc]
  refine ⟨rfl, ?_, ?_⟩
  · rw [onDisconnectBody_of_none hnone]
  · rw [onDisconnectBody_of_none hnone]
    simp [dbDeactivate_idem, setDelete_idem, filter_idem, mapDelete_idem, mapDelete]

/-- A session that has fully disconnected: absent from `connectedUsers`
and not in the queue. -/
def Gone (st : ServerState) (sid : String) : Prop :=
  mapGet sid st.connectedUsers = none ∧ sid ∉ st.waitingUsers

/-- The emission names `sid` as a party of a pairing (either as the
recipient of a `matched` event or as the partner it announces). -/
def mentionsMatched (sid : String) : Emit → Prop
  | .matched dst _ partnerId _ => dst = sid ∨ partnerId = sid
  | _ => False

theorem findMatch_connectedUsers (st : ServerState) (u r : String) (n : Nat) :
    (findMatch st u r n).state.connectedUsers = st.connectedUsers := by
  cases hfp : findMatchPartner { st with waitingUsers := setDelete u st.waitingUsers } u with
  | none => rw [findMatch_of_partner_none r n hfp]
  | some w => rw [findMatch_of_partner_some r n hfp]

theorem findMatch_emits_no_mention {st : ServerState} {sid u : String} (r : String) (n : Nat)
    (hsw : sid ∉ st.waitingUsers) (hu : u ≠ sid) :
    ∀ e ∈ (findMatch st u r n).emits, ¬ mentionsMatched sid e := by
  cases hfp : findMatchPartner { st with waitingUsers := setDelete u st.waitingUsers } u with
  | none =>
    rw [findMatch_of_partner_none r n hfp]
    simp
  | some w =>
    rw [findMatch_of_partner_some r n hfp]
    have hw := findMatchPartner_mem hfp
    have hwsid : w ≠ sid := fun h => hsw (h ▸ hw.1)
    intro e he
    rcases List.mem_cons.1 he with rfl | he2
    · rintro (h | h)
      · exact hu h
      · exact hwsid h
    rcases List.mem_cons.1 he2 with rfl | he3
    · rintro (h | h)
      · exact hwsid h
      · exact hu h
    · cases he3

theorem onFindMatch_gone {st : ServerState} {sid u : String} (fresh : String) (n : Nat)
    (hg : Gone st sid) (hu : u ≠ sid) :
    Gone (onFindMatch st u fresh n).1 sid ∧
    ∀ e ∈ (onFindMatch st u fresh n).2, ¬ mentionsMatched sid e := by
  unfold onFindMatch
  split
  · exact ⟨hg, by simp⟩
  · split
    · exact ⟨hg, by simp [mentionsMatched]⟩
    · refine ⟨⟨?_, ?_⟩, ?_⟩
      · rw [findMatch_connectedUsers]
        exact hg.1
      · exact findMatch_waiting_not_mem fresh n hg.2 (Ne.symm hu)
      · intro e he
        rcases List.mem_append.1 he with h | h
        · exact findMatch_emits_no_mention fresh n hg.2 hu e h
        · rcases hm : (findMatch st u fresh n).matched with _ | _ <;> rw [hm] at h
          · rcases List.mem_singleton.1 h with rfl
            simp [mentionsMatched]
          · cases h

theorem onDisconnectBody_fields (st : ServerState) (s : String) :
    (onDisconnectBody st s).1.connectedUsers = mapDelete s st.connectedUsers ∧
    (onDisconnectBody st s).1.waitingUsers = setDelete s st.waitingUsers ∧
    ∀ e ∈ (onDisconnectBody st s).2, ∃ b, e = Emit.partnerDisconnected b := by
  simp only [onDisconnectBody]
  split
  · exact ⟨rfl, rfl, by simp⟩
  · split
    · exact ⟨rfl, rfl, by simp⟩
    · split
      · exact ⟨rfl, rfl, by simp⟩
      · exact ⟨rfl, rfl, by simp⟩

theorem step_gone {st : ServerState} {sid : String} {ev : Ev}
    (hg : Gone st sid) (hleg : LegalEv st ev)
    (hnc : ∀ uid, ev ≠ .connect uid sid) :
    Gone (step st ev).1 sid ∧ ∀ e ∈ (step st ev).2, ¬ mentionsMatched sid e := by
  cases ev with
  | connect uid s =>
    have hs : s ≠ sid := by
      intro h
      exact hnc uid (by rw [h])
    refine ⟨⟨?_, hg.2⟩, by simp [step, onConnection]⟩
    show mapGet sid (st.connectedUsers ++ [(s, uid)]) = none
    rw [mapGet_append_of_none hg.1]
    simp [mapGet, hs]
  | findMatchReq s fresh n =>
    have hs : s ≠ sid := by
      intro h
      subst h
      have hcon := hleg.1
      rw [hg.1] at hcon
      simp at hcon
    exact onFindMatch_gone fresh n hg hs
  | relayReq s roomId kind payload =>
    refine ⟨hg, ?_⟩
    intro e he
    obtain ⟨t, _, rfl⟩ := List.mem_map.1 he
    simp [mentionsMatched]
  | skipReq s roomId fresh n =>
    have hs : s ≠ sid := by
      intro h
      subst h
      have hcon := hleg.1
      rw [hg.1] at hcon
      simp at hcon
    have hg2 : Gone (skipCleanup st s roomId) sid := by
      refine ⟨?_, ?_⟩
      · rw [skipCleanup_connectedUsers]
        exact hg.1
      · rw [skipCleanup_waitingUsers]
        exact hg.2
    refine ⟨⟨?_, ?_⟩, ?_⟩
    · show mapGet sid (onSkipUser st s roomId fresh n).1.connectedUsers = none
      rw [onSkipUser_eq]
      show mapGet sid (findMatch (skipCleanup st s roomId) s fresh n).state.connectedUsers = none
      rw [findMatch_connectedUsers]
      exact hg2.1
    · show sid ∉ (onSkipUser st s roomId fresh n).1.waitingUsers
      rw [onSkipUser_eq]
      exact findMatch_waiting_not_mem fresh n hg2.2 (Ne.symm hs)
    · show ∀ e ∈ (onSkipUser st s roomId fresh n).2, ¬ mentionsMatched sid e
      rw [onSkipUser_eq]
      intro e he
      rcases List.mem_append.1 he with h | h
      · rcases List.mem_append.1 h with h2 | h2
        · obtain ⟨t, _, rfl⟩ := List.mem_map.1 h2
          simp [mentionsMatched]
        · exact findMatch_emits_no_mention fresh n hg2.2 hs e h2
      · rcases hm : (findMatch (skipCleanup st s roomId) s fresh n).matched with _ | _ <;>
          rw [hm] at h
        · rcases List.mem_singleton.1 h with rfl
          simp [mentionsMatched]
        · cases h
  | disconnect s =>
    have hf := onDisconnectBody_fields st s
    refine ⟨⟨?_, ?_⟩, ?_⟩
    · show mapGet sid (onDisconnectBody st s).1.connectedUsers = none
      rw [hf.1]
      exact mapGet_filter_of_none hg.1 _
    · show sid ∉ (onDisconnectBody st s).1.waitingUsers
      rw [hf.2.1]
      intro h
      exact hg.2 (mem_setDelete.1 h).1
    · intro e he
      obtain ⟨b, rfl⟩ := hf.2.2 e he
      simp [mentionsMatched]
  | sweep n =>
    exact ⟨hg, by simp [step]⟩

theorem run_gone {sid : String} :
    ∀ (evs : List Ev) (st : ServerState), Gone st sid → LegalTrace st evs →
      (∀ uid, Ev.connect uid sid ∉ evs) →
      Gone (run st evs).1 sid ∧ ∀ e ∈ (run st evs).2, ¬ mentionsMatched sid e := by
  intro evs
  induction evs with
  | nil =>
    intro st hg _ _
    exact ⟨hg, by simp [run]⟩
  | cons ev rest ih =>
    intro st hg hleg hnc
    have hnc1 : ∀ uid, ev ≠ Ev.connect uid sid := by
      intro uid h
      exact hnc uid (by rw [← h]; exact List.mem_cons_self _ _)
    have h1 := step_gone hg hleg.1 hnc1
    have h2 := ih (step st ev).1 h1.1 hleg.2
      (fun uid hm => hnc uid (List.mem_cons_of_mem _ hm))
    refine ⟨h2.1, ?_⟩
    intro e he
    simp only [run] at he
    rcases List.mem_append.1 he with h | h
    · exact h1.2 e h
    · exact h2.2 e h

/-- Claim C7: disconnecting a session removes it from the queue, and along
any legal continuation of the run (socket ids are never reused, so no
later `connect` carries the same id) no pairing ever involves it again: no
`matched` event is addressed to it or names it as a partner. -/
theorem claim_C7_disconnected_waiting_never_repaired (st : ServerState) (sid : String)
    (evs : List Ev)
    (hleg : LegalTrace (step st (.disconnect sid)).1 evs)
    (hnc : ∀ uid, Ev.connect uid sid ∉ evs) :
    sid ∉ (step st (.disconnect sid)).1.waitingUsers ∧
    ∀ e ∈ (run (step st (.disconnect sid)).1 evs).2, ¬ mentionsMatched sid e := by
  have hf := onDisconnectBody_fields st sid
  have hg : Gone (step st (.disconnect sid)).1 sid := by
    refine ⟨?_, ?_⟩
    · show mapGet sid (onDisconnectBody st sid).1.connectedUsers = none
      rw [hf.1]
      exact mapGet_mapDelete_self sid _
    · show sid ∉ (onDisconnectBody st sid).1.waitingUsers
      rw [hf.2.1]
      exact not_mem_setDelete_self sid _
  exact ⟨hg.2, (run_gone evs _ hg hleg hnc).2⟩

/-- Concrete state for the C8 witness: "A" and "B" matched in room "r1". -/
def stDisc : ServerState :=
  { connectedUsers := [("A", "uA"), ("B", "uB")], waitingUsers := [],
    activeRooms := [("r1", ⟨["A", "B"], 0⟩)],
    joined := [("A", "r1"), ("B", "r1")],
    userSessions := [⟨"uA", "A", true, none⟩, ⟨"uB", "B", true, none⟩] }

/-- Witness for claim C8 at `stDisc`: the first cleanup of "A" notifies "B"
once; the second run emits nothing and changes nothing. -/
theorem claim_C8_disconnect_cleanup_idempotent_witness :
    (findRoomOf stDisc.activeRooms "A" = some ("r1", ⟨["A", "B"], 0⟩) ∧
      (∀ p ∈ stDisc.activeRooms, "A" ∈ p.2.users → p.1 = "r1")) ∧
    (step stDisc (.disconnect "A")).2 = [.partnerDisconnected "B"] ∧
    (step (step stDisc (.disconnect "A")).1 (.disconnect "A")).2 = [] ∧
    (step (step stDisc (.disconnect "A")).1 (.disconnect "A")).1 =
      (step stDisc (.disconnect "A")).1 :=
  ⟨⟨by decide, by decide⟩,
    claim_C8_disconnect_cleanup_idempotent stDisc "A" "B" "r1" "uB" ⟨["A", "B"], 0⟩
      (by decide) (by decide) (by decide) (by decide)⟩

/-- Concrete state for the C7 witness: "A" is waiting, "B" connected. -/
def stLive : ServerState :=
  { connectedUsers := [("A", "uA"), ("B", "uB")], waitingUsers := ["A"],
    activeRooms := [], joined := [],
    userSessions := [⟨"uA", "A", true, none⟩, ⟨"uB", "B", true, none⟩] }

/-- Continuation trace for the C7 witness: "C" connects, "B" and "C" each
request a match and get paired with each other, never with "A". -/
def evsAfter : List Ev :=
  [.connect "uC" "C", .findMatchReq "B" "r1" 1, .findMatchReq "C" "r2" 2]

/-- Witness for claim C7: after the waiting "A" disconnects from `stLive`,
the legal continuation `evsAfter` never pairs "A" again. -/
theorem claim_C7_disconnected_waiting_never_repaired_witness :
    LegalTrace (step stLive (.disconnect "A")).1 evsAfter ∧
    (∀ uid, Ev.connect uid "A" ∉ evsAfter) ∧
    ("A" ∉ (step stLive (.disconnect "A")).1.waitingUsers ∧
      ∀ e ∈ (run (step stLive (.disconnect "A")).1 evsAfter).2,
        ¬ mentionsMatched "A" e) := by
  have hleg : LegalTrace (step stLive (.disconnect "A")).1 evsAfter :=
    ⟨rfl, ⟨rfl, rfl⟩, ⟨rfl, rfl⟩, trivial⟩
  have hnc : ∀ uid, Ev.connect uid "A" ∉ evsAfter := by
    intro uid
    simp [evsAfter]
  exact ⟨hleg, hnc,
    claim_C7_disconnected_waiting_never_repaired stLive "A" evsAfter hleg hnc⟩

end Yelloo
